import Mathlib

set_option maxRecDepth 100000

/-!
Shallow embedding of the SMS transaction parser in
`src/tools/sms_parser_tool.py` (class `SMSParserTool`).

The Python parser works by running compiled `re` patterns (with
`re.IGNORECASE | re.DOTALL`) against the message via `re.search`, then
normalising the captured substrings with `Decimal` and
`datetime.strptime`.  Every quantifier occurring in the ten patterns of
`_compile_patterns` applies to a single-character class (e.g. `[A-Z0-9]+`,
`\s+`, `.*?`, `\d{2}`) or to the one optional literal group
`(?:M-PESA\s+)?`; the embedding below therefore represents a pattern as a
sequence of literals, quantified character classes, literal alternations,
capture groups and optional groups, and implements Python's leftmost,
depth-first backtracking search directly on that representation.

Messages are modelled as `List Char`.  Python `Decimal` values produced by
`_parse_amount` are modelled by `Dec`, `Decimal`'s own exact
coefficient–exponent representation, whose exact rational value is
`Dec.toRat`; `datetime` values are a record of calendar fields.  An exception raised inside one template
attempt (a normalizer failure) is modelled by `Except.error ()`, which the
dispatcher `parse_sms` treats exactly like a failed match, mirroring the
`try/except/continue` loop of `SMSParserTool.parse_sms`.
-/

/-- ASCII lower-casing, used to model `re.IGNORECASE` comparisons. -/
def lowC (c : Char) : Char := c.toLower

/-- Python regex `\s` over the ASCII range: space, tab, newline, carriage
return, vertical tab, form feed.  Also models `str.strip`'s notion of
whitespace for the ASCII inputs of this development. -/
def isSpaceC (c : Char) : Bool :=
  c == ' ' || c == '\t' || c == '\n' || c == '\r' || c == '\x0b' || c == '\x0c'

/-- Python regex `\d` over ASCII. -/
def isDigitC (c : Char) : Bool := c.isDigit

/-- Class `[A-Z0-9]` under `re.IGNORECASE`: ASCII letters of either case or
digits. -/
def isUpAl (c : Char) : Bool := c.isAlpha || c.isDigit

/-- Class `[A-Z\s\']` under `re.IGNORECASE` (sender names). -/
def isSenderC (c : Char) : Bool := c.isAlpha || isSpaceC c || c == Char.ofNat 39

/-- Class `[A-Z\s]` under `re.IGNORECASE` (recipient/agent names). -/
def isNameC (c : Char) : Bool := c.isAlpha || isSpaceC c

/-- Class `[A-Z\s&\-]` under `re.IGNORECASE` (merchant names). -/
def isMerchC (c : Char) : Bool := c.isAlpha || isSpaceC c || c == '&' || c == '-'

/-- Class `[\d,]` (digits or thousands separators). -/
def isDigCom (c : Char) : Bool := c.isDigit || c == ','

/-- Class `[A-Za-z]` (bank-date month letters). -/
def isAlphaC (c : Char) : Bool := c.isAlpha

/-- `.` under `re.DOTALL`: any character. -/
def isAnyC (_ : Char) : Bool := true

/-- A simple pattern element: a case-insensitive literal, a quantified
single-character class `cls p lo hi lazy` (greedy unless `lazy`), or an
ordered alternation of case-insensitive literals. -/
inductive SItem where
  | lit : List Char → SItem
  | cls : (Char → Bool) → Nat → Option Nat → Bool → SItem
  | alts : List (List Char) → SItem

/-- A pattern element: a simple item, a named capture group over simple
items, or an optional (`(?:...)?`, greedy) non-capturing group. -/
inductive Item where
  | si : SItem → Item
  | grp : String → List SItem → Item
  | opt : List SItem → Item

/-- Length of the maximal run of characters satisfying `p` at the front of
the string. -/
def runLen (p : Char → Bool) : List Char → Nat
  | [] => 0
  | c :: cs => if p c then runLen p cs + 1 else 0

/-- Case-insensitive "the literal `l` occurs at the front of `s`". -/
def startsCI : List Char → List Char → Bool
  | [], _ => true
  | _ :: _, [] => false
  | a :: as, b :: bs => lowC a == lowC b && startsCI as bs

/-- The consumed lengths one simple item can take at the front of `s`, in
Python's backtracking preference order (greedy: longest first; lazy:
shortest first; alternation: alternative order). -/
def sitemCands : SItem → List Char → List Nat
  | .lit l, s => if startsCI l s then [l.length] else []
  | .cls p lo hi lz, s =>
      let r := runLen p s
      let m := min r (hi.getD r)
      if lo > m then []
      else if lz then List.range' lo (m - lo + 1)
      else (List.range' lo (m - lo + 1)).reverse
  | .alts as, s => as.filterMap fun a => if startsCI a s then some a.length else none

/-- All ways a sequence of simple items can match a front segment of `s`,
as consumed lengths in depth-first (Python backtracking) preference
order. -/
def seqCands : List SItem → List Char → List Nat
  | [], _ => [0]
  | it :: rest, s =>
      (sitemCands it s).flatMap fun n =>
        (seqCands rest (s.drop n)).map fun m => n + m

/-- Accumulated captures: group name to captured text, in group order. -/
abbrev Caps := List (String × List Char)

/-- Backtracking matcher for a pattern anchored at the front of `s`,
returning the captures of the first (Python preference order) way the
whole pattern matches, or `none`. -/
def matchItems : List Item → List Char → Caps → Option Caps
  | [], _, caps => some caps
  | .si it :: rest, s, caps =>
      (sitemCands it s).findSome? fun n => matchItems rest (s.drop n) caps
  | .grp name sub :: rest, s, caps =>
      (seqCands sub s).findSome? fun n =>
        matchItems rest (s.drop n) (caps ++ [(name, s.take n)])
  | .opt sub :: rest, s, caps =>
      (seqCands sub s ++ [0]).findSome? fun n => matchItems rest (s.drop n) caps

/-- `re.search`: try each start position left to right, returning the
captures of the match at the leftmost position where the pattern
matches. -/
def searchFrom (p : List Item) : List Char → Option Caps
  | [] => matchItems p [] []
  | c :: t =>
      match matchItems p (c :: t) [] with
      | some caps => some caps
      | none => searchFrom p t

/-- Captured text of group `n` (groups of these patterns are always
present on a match; absent lookup yields `[]`). -/
def capv (caps : Caps) (n : String) : List Char :=
  ((caps.find? fun e => e.1 == n).map Prod.snd).getD []

/-! ### Field normalizers -/

/-- `amount_str.replace(',', '')` in `_parse_amount`. -/
def stripCommas (s : List Char) : List Char := s.filter fun c => !(c == ',')

/-- Numeric value of a digit string, most significant first. -/
def digitsVal (s : List Char) : Nat := s.foldl (fun a c => a * 10 + (c.toNat - 48)) 0

/-- Value of one ASCII digit. -/
def digitVal (c : Char) : Nat := c.toNat - 48

/-- A Python `Decimal` value in its own signed-coefficient–exponent
representation: the numeric value is `mant / 10 ^ scale` (so `scale` is
the negated exponent of the `as_tuple()` form), `Decimal("5991.87")` is
`⟨599187, 2⟩`, `Decimal("0.00")` is `⟨0, 2⟩` and `Decimal("1E+28")` is
`⟨1, -28⟩`.  Like `Decimal`, the representation keeps trailing zeros (no
normalisation).  `Dec.toRat` gives the exact rational value. -/
structure Dec where
  mant : Int
  scale : Int
deriving DecidableEq, Repr

/-- The exact rational value of a decimal. -/
def Dec.toRat (a : Dec) : ℚ := (a.mant : ℚ) / (10 : ℚ) ^ a.scale

/-- Number of base-10 digits of `n` (1 for 0), as `len(self._int)` counts
the digits of a `Decimal` coefficient.  The extra first argument is
structural-recursion fuel; `n + 1` always suffices. -/
def numDigitsAux : Nat → Nat → Nat
  | 0, _ => 0
  | fuel + 1, n => if n < 10 then 1 else numDigitsAux fuel (n / 10) + 1

/-- Number of base-10 digits of `n` (1 for 0). -/
def numDigits (n : Nat) : Nat := numDigitsAux (n + 1) n

/-- `getcontext().prec`: the default decimal context carries 28
significant digits (nothing in the source repository changes it). -/
def decPrec : Nat := 28

/-- Round `m / 10 ^ k` to the nearest integer, ties to the even
neighbour — the default context's `ROUND_HALF_EVEN`, applied to the
magnitude of the coefficient. -/
def roundHalfEvenDiv (m k : Nat) : Nat :=
  let p := 10 ^ k
  let q := m / p
  let r := m % p
  if 2 * r < p then q
  else if 2 * r > p then q + 1
  else if q % 2 = 0 then q else q + 1

/-- The exact signed coefficient of `a + b` at the ideal exponent
`min(e₁, e₂)` (that is, at scale `max a.scale b.scale`). -/
def exactMant (a b : Dec) : Int :=
  a.mant * (10 : ℤ) ^ (max a.scale b.scale - a.scale).toNat
    + b.mant * (10 : ℤ) ^ (max a.scale b.scale - b.scale).toNat

/-- Python `Decimal.__add__` under the default context: the exact sum is
taken at the ideal exponent `min(e₁, e₂)`; if its coefficient has more
than `prec = 28` digits, the magnitude is rounded half-even to 28 digits
and the exponent raised accordingly (one digit further when rounding
carries up to `10^28`, e.g. `9.9999999999999999999999999995 + 0.00`).
Checked against CPython `decimal` on exact, rounded, tie, carry, zero and
positive-exponent cases, representation included. -/
def Dec.add (a b : Dec) : Dec :=
  let s := max a.scale b.scale
  let m := exactMant a b
  let nd := numDigits m.natAbs
  if nd ≤ decPrec then ⟨m, s⟩
  else
    let k := nd - decPrec
    let q := roundHalfEvenDiv m.natAbs k
    let q2 := if numDigits q ≤ decPrec then q else q / 10
    let k2 := if numDigits q ≤ decPrec then k else k + 1
    ⟨if m < 0 then -(q2 : ℤ) else (q2 : ℤ), s - (k2 : ℤ)⟩

/-- The coefficient sign flip a leading `-` produces in `Decimal(str)`:
the exponent is preserved. -/
def Dec.neg (a : Dec) : Dec := ⟨-a.mant, a.scale⟩

/-- The unsigned part of Python `Decimal(str)` on plain decimal numerals:
digits with at most one point and at least one digit; the coefficient and
exponent are exactly `Decimal`'s (`"5."` is `⟨5, 0⟩`, `".5"` is `⟨5, 1⟩`).
(Exponent, `NaN`/`Infinity` and whitespace spellings accepted by
`Decimal` cannot arise from the parser's captures, whose alphabet is
digits, `,`, `.`, `-`; they are outside the modelled domain.) -/
def parseUnsignedDec (s : List Char) : Option Dec :=
  let ip := s.takeWhile isDigitC
  match s.dropWhile isDigitC with
  | [] => if ip.isEmpty then none else some ⟨(digitsVal ip : Int), 0⟩
  | c :: fp =>
      if c = '.' ∧ fp.all isDigitC ∧ ¬(ip.isEmpty ∧ fp.isEmpty) then
        some ⟨(digitsVal ip : Int) * (10 : ℤ) ^ fp.length + (digitsVal fp : Int),
              fp.length⟩
      else none

/-- Python `Decimal(str)` on optionally signed plain decimal numerals: an
optional leading sign, then the unsigned numeral; an `InvalidOperation`
raise is modelled as `none`. -/
def parseDecStr : List Char → Option Dec
  | [] => none
  | c :: t =>
    if c = '-' then (parseUnsignedDec t).map Dec.neg
    else if c = '+' then parseUnsignedDec t
    else parseUnsignedDec (c :: t)

/-- `SMSParserTool._parse_amount`: strip comma separators, then
`Decimal(clean_amount)`. -/
def parse_amount (s : List Char) : Option Dec := parseDecStr (stripCommas s)

/-- A Python `datetime` value (the parser never produces seconds or
sub-second fields, so they are omitted). -/
structure PyDateTime where
  year : Nat
  month : Nat
  day : Nat
  hour : Nat
  minute : Nat
deriving DecidableEq, Repr

/-- Gregorian leap year, as `calendar.isleap` / `datetime` use it. -/
def isLeap (y : Nat) : Bool := y % 4 == 0 && (y % 100 != 0 || y % 400 == 0)

/-- Days in a month, as validated by the `datetime` constructor. -/
def daysInMonth (y m : Nat) : Nat :=
  if m == 2 then (if isLeap y then 29 else 28)
  else if m == 4 || m == 6 || m == 9 || m == 11 then 30
  else 31

/-- `SMSParserTool._parse_mpesa_datetime`:
`datetime.strptime(f"{date_str} {time_str}", "%d/%m/%Y %I:%M %p")` on the
shapes its captures can take (`\d{2}/\d{2}/\d{4}` and
`\d{2}:\d{2}\s+(?:AM|PM)`, case-insensitive).  `%I` on a two-digit field
accepts exactly the values 1..12 (its pattern `1[0-2]|0[1-9]|[1-9]`
followed by the literal `:` rejects `00` and 13..99), `%M` accepts 00..59,
format whitespace matches `\s+`, `%p` is case-insensitive, and the
`datetime` constructor validates the calendar date and requires
`year ≥ 1`; a `ValueError` raise is modelled as `none`.  `%p` converts the
1..12 hour to 0..23. -/
def parse_mpesa_datetime (ds ts : List Char) : Option PyDateTime :=
  match ds with
  | [a, b, s1, c, d, s2, e, f, g, h] =>
    if s1 = '/' ∧ s2 = '/' ∧ ([a, b, c, d, e, f, g, h].all isDigitC) = true then
      let day := digitVal a * 10 + digitVal b
      let mon := digitVal c * 10 + digitVal d
      let yr := digitVal e * 1000 + digitVal f * 100 + digitVal g * 10 + digitVal h
      match ts with
      | p :: q :: co :: r :: u :: rest =>
        if co = ':' ∧ ([p, q, r, u].all isDigitC) = true then
          let hh := digitVal p * 10 + digitVal q
          let mm := digitVal r * 10 + digitVal u
          match rest.dropWhile isSpaceC with
          | [x, y] =>
            if (rest.takeWhile isSpaceC).isEmpty = false ∧ lowC y = 'm' ∧
               (lowC x = 'a' ∨ lowC x = 'p') ∧
               1 ≤ yr ∧ 1 ≤ mon ∧ mon ≤ 12 ∧ 1 ≤ day ∧ day ≤ daysInMonth yr mon ∧
               1 ≤ hh ∧ hh ≤ 12 ∧ mm ≤ 59 then
              some ⟨yr, mon, day, hh % 12 + (if lowC x = 'p' then 12 else 0), mm⟩
            else none
          | _ => none
        else none
      | _ => none
    else none
  | _ => none

/-- Lower-cased three-letter month abbreviations recognised by `%b`. -/
def monthAbbrevs : List (List Char) :=
  (["jan", "feb", "mar", "apr", "may", "jun",
    "jul", "aug", "sep", "oct", "nov", "dec"].map String.toList)

/-- Month number of a three-letter abbreviation, case-insensitively. -/
def monthNum (m : List Char) : Option Nat :=
  match monthAbbrevs.findIdx? fun a => a == m.map lowC with
  | some i => some (i + 1)
  | none => none

/-- `SMSParserTool._parse_bank_date`:
`datetime.strptime(date_str, "%d-%b-%Y")` on the capture shape
`\d{2}-[A-Za-z]{3}-\d{4}`; time-of-day defaults to midnight; a
`ValueError` raise (unknown month abbreviation, day out of range for the
month, year 0) is modelled as `none`. -/
def parse_bank_date (ds : List Char) : Option PyDateTime :=
  match ds with
  | [a, b, h1, m1, m2, m3, h2, e, f, g, h] =>
    if h1 = '-' ∧ h2 = '-' ∧ ([a, b, e, f, g, h].all isDigitC) = true then
      match monthNum [m1, m2, m3] with
      | some mon =>
        let day := digitVal a * 10 + digitVal b
        let yr := digitVal e * 1000 + digitVal f * 100 + digitVal g * 10 + digitVal h
        if 1 ≤ yr ∧ 1 ≤ day ∧ day ≤ daysInMonth yr mon then
          some ⟨yr, mon, day, 0, 0⟩
        else none
      | none => none
    else none
  | _ => none

/-! ### Data model -/

/-- Transaction type constant `MPESA_RECEIVED`. -/
def MPESA_RECEIVED : List Char := "received".toList

/-- Transaction type constant `MPESA_SENT`. -/
def MPESA_SENT : List Char := "sent".toList

/-- Transaction type constant `MPESA_PAYBILL`. -/
def MPESA_PAYBILL : List Char := "paybill".toList

/-- Transaction type constant `MPESA_TILL`. -/
def MPESA_TILL : List Char := "till".toList

/-- Transaction type constant `MPESA_WITHDRAWAL`. -/
def MPESA_WITHDRAWAL : List Char := "withdrawal".toList

/-- Transaction type constant `MPESA_AIRTIME`. -/
def MPESA_AIRTIME : List Char := "airtime".toList

/-- Transaction type constant `BANK_DEPOSIT`. -/
def BANK_DEPOSIT : List Char := "bank_deposit".toList

/-- Transaction type constant `BANK_WITHDRAWAL`. -/
def BANK_WITHDRAWAL : List Char := "bank_withdrawal".toList

/-- Transaction type constant `BANK_TRANSFER`. -/
def BANK_TRANSFER : List Char := "bank_transfer".toList

/-- `self.transaction_types`, as populated in `__init__`. -/
def transaction_types : List (List Char) :=
  [MPESA_RECEIVED, MPESA_SENT, MPESA_PAYBILL, MPESA_TILL, MPESA_WITHDRAWAL,
   MPESA_AIRTIME, BANK_DEPOSIT, BANK_WITHDRAWAL, BANK_TRANSFER]

/-- The dictionary a successful template parse returns.  The Python code
builds a per-template dict; the union of the keys appearing across the ten
`_parse_*` functions is modelled as one structure, a key absent from a
given template's dict being `none`.  Monetary values are exact rationals
(Python `Decimal`); the failure-dict `error` entries of `parse_bulk` are
modelled separately by `ParseOutcome.failure`. -/
structure TransactionRecord where
  transaction_type : List Char
  reference : List Char
  amount : Dec
  date : PyDateTime
  balance : Dec
  raw_text : List Char
  sender : Option (List Char) := none
  recipient : Option (List Char) := none
  merchant : Option (List Char) := none
  agent_name : Option (List Char) := none
  phone : Option (List Char) := none
  agent_number : Option (List Char) := none
  account_number : Option (List Char) := none
  till_number : Option (List Char) := none
  account : Option (List Char) := none
  bank : Option (List Char) := none
  transaction_cost : Option Dec := none
deriving DecidableEq, Repr

/-- Python `str.strip()` on ASCII text. -/
def pyStrip (s : List Char) : List Char :=
  ((s.dropWhile isSpaceC).reverse.dropWhile isSpaceC).reverse

/-! ### The ten compiled patterns of `_compile_patterns` -/

/-- `\s+`. -/
def wsP : Item := .si (.cls isSpaceC 1 none false)

/-- A literal run of the pattern (matched case-insensitively). -/
def litP (s : String) : Item := .si (.lit s.toList)

/-- `(?P<name>[\d,]+\.?\d*)` (amount/cost capture). -/
def amtG (name : String) : Item :=
  .grp name [.cls isDigCom 1 none false, .cls (fun c => c == '.') 0 (some 1) false,
             .cls isDigitC 0 none false]

/-- `(?P<name>-?[\d,]+\.?\d*)` (balance capture). -/
def balG (name : String) : Item :=
  .grp name [.cls (fun c => c == '-') 0 (some 1) false, .cls isDigCom 1 none false,
             .cls (fun c => c == '.') 0 (some 1) false, .cls isDigitC 0 none false]

/-- `(?P<date>\d{2}/\d{2}/\d{4})`. -/
def dateG : Item :=
  .grp "date" [.cls isDigitC 2 (some 2) false, .lit ['/'], .cls isDigitC 2 (some 2) false,
               .lit ['/'], .cls isDigitC 4 (some 4) false]

/-- `(?P<time>\d{2}:\d{2}\s+(?:AM|PM))`. -/
def timeG : Item :=
  .grp "time" [.cls isDigitC 2 (some 2) false, .lit [':'], .cls isDigitC 2 (some 2) false,
               .cls isSpaceC 1 none false, .alts ["AM".toList, "PM".toList]]

/-- `.*?` under `re.DOTALL`. -/
def lazyAny : Item := .si (.cls isAnyC 0 none true)

/-- `(?P<name>254\d{9})` (phone / agent number capture). -/
def phoneG (name : String) : Item :=
  .grp name [.lit "254".toList, .cls isDigitC 9 (some 9) false]

/-- `(?P<name>\d+)`. -/
def numG (name : String) : Item := .grp name [.cls isDigitC 1 none false]

/-- `(?P<date>\d{2}-[A-Za-z]{3}-\d{4})` (bank date capture). -/
def bankDateG : Item :=
  .grp "date" [.cls isDigitC 2 (some 2) false, .lit ['-'], .cls isAlphaC 3 (some 3) false,
               .lit ['-'], .cls isDigitC 4 (some 4) false]

/-- The bank-name alternation of the four bank patterns, in source order. -/
def bankNames : List (List Char) :=
  (["KCB", "Equity", "Co-operative", "Barclays", "Standard Chartered",
    "NCBA", "I&M", "DTB", "Family", "Stanbic"].map String.toList)

/-- `(?P<bank>(?:KCB|…|Stanbic)\s+Bank)`. -/
def bankG : Item :=
  .grp "bank" [.alts bankNames, .cls isSpaceC 1 none false, .lit "Bank".toList]

/-- `(?P<account>XXXX\d+)`. -/
def accG : Item := .grp "account" [.lit "XXXX".toList, .cls isDigitC 1 none false]

/-- `.*?Transaction cost[,\s]+Ksh(?P<cost>[\d,]+\.?\d*)`, the common tail
of the sent/paybill/till patterns. -/
def costTail : List Item :=
  [lazyAny, litP "Transaction cost",
   .si (.cls (fun c => c == ',' || isSpaceC c) 1 none false), litP "Ksh", amtG "cost"]

/-- `self.mpesa_received_pattern`. -/
def mpesa_received_pattern : List Item :=
  [.grp "reference" [.cls isUpAl 1 none false], wsP, litP "Confirmed.", wsP,
   litP "You have received", wsP, litP "Ksh", amtG "amount", wsP, litP "from", wsP,
   .grp "sender" [.cls isSenderC 1 none true], wsP, phoneG "phone", wsP, litP "on", wsP,
   dateG, wsP, litP "at", wsP, timeG, lazyAny, litP "New M-PESA balance is Ksh",
   balG "balance"]

/-- `self.mpesa_sent_pattern`. -/
def mpesa_sent_pattern : List Item :=
  [.grp "reference" [.cls isUpAl 1 none false], wsP, litP "Confirmed.", wsP, litP "Ksh",
   amtG "amount", wsP, litP "sent to", wsP, .grp "recipient" [.cls isNameC 1 none true],
   wsP, phoneG "phone", wsP, litP "on", wsP, dateG, wsP, litP "at", wsP, timeG,
   lazyAny, litP "New M-PESA balance is Ksh", balG "balance"] ++ costTail

/-- `self.mpesa_paybill_pattern`. -/
def mpesa_paybill_pattern : List Item :=
  [.grp "reference" [.cls isUpAl 1 none false], wsP, litP "Confirmed.", wsP,
   litP "You have paid", wsP, litP "Ksh", amtG "amount", wsP, litP "to", wsP,
   .grp "merchant" [.cls isMerchC 1 none true], wsP, litP "for account", wsP,
   numG "account", wsP, litP "on", wsP, dateG, wsP, litP "at", wsP, timeG,
   lazyAny, litP "New balance is Ksh", balG "balance"] ++ costTail

/-- `self.mpesa_till_pattern`. -/
def mpesa_till_pattern : List Item :=
  [.grp "reference" [.cls isUpAl 1 none false], wsP, litP "Confirmed.", wsP, litP "Ksh",
   amtG "amount", wsP, litP "paid to", wsP, .grp "merchant" [.cls isMerchC 1 none true],
   wsP, litP "Till Number", wsP, numG "till", wsP, litP "on", wsP, dateG, wsP,
   litP "at", wsP, timeG, lazyAny, litP "New balance is Ksh", balG "balance"] ++ costTail

/-- `self.mpesa_withdrawal_pattern` (note: it ends at the bare literal
`Tr`, and captures no cost group). -/
def mpesa_withdrawal_pattern : List Item :=
  [.grp "reference" [.cls isUpAl 1 none false], wsP, litP "Confirmed.", wsP,
   litP "You have withdrawn", wsP, litP "Ksh", amtG "amount", wsP, litP "from", wsP,
   .opt [.lit "M-PESA".toList, .cls isSpaceC 1 none false], litP "Agent", wsP,
   .grp "agent" [.cls isNameC 1 none true], wsP, phoneG "agent_number", wsP, litP "on",
   wsP, dateG, wsP, litP "at", wsP, timeG, lazyAny, litP "New", wsP,
   .opt [.lit "M-PESA".toList, .cls isSpaceC 1 none false], litP "balance is Ksh",
   balG "balance", lazyAny, litP "Tr"]

/-- `self.mpesa_airtime_pattern`. -/
def mpesa_airtime_pattern : List Item :=
  [.grp "reference" [.cls isUpAl 1 none false], wsP, litP "Confirmed.", wsP,
   litP "You bought", wsP, litP "Ksh", amtG "amount", wsP, litP "airtime", wsP,
   litP "for", wsP, phoneG "phone", wsP, litP "on", wsP, dateG, wsP, litP "at", wsP,
   timeG, lazyAny, litP "New balance is Ksh", balG "balance"]

/-- `self.bank_deposit_pattern`. -/
def bank_deposit_pattern : List Item :=
  [bankG, litP ":", wsP, litP "Deposit of KES", wsP, amtG "amount", wsP,
   litP "received", lazyAny, litP "Acc", wsP, accG, wsP, litP "Balance:", wsP,
   litP "KES", wsP, balG "balance", lazyAny, litP "Ref:", wsP, numG "reference", wsP,
   litP "on", wsP, bankDateG]

/-- `self.bank_withdrawal_pattern`. -/
def bank_withdrawal_pattern : List Item :=
  [bankG, litP ":", wsP, litP "Withdrawal of KES", wsP, amtG "amount", wsP,
   litP "successful", lazyAny, litP "Acc", wsP, accG, wsP, litP "Balance:", wsP,
   litP "KES", wsP, balG "balance", lazyAny, litP "Ref:", wsP, numG "reference", wsP,
   litP "on", wsP, bankDateG]

/-- `self.bank_debit_pattern`. -/
def bank_debit_pattern : List Item :=
  [bankG, litP ":", wsP, litP "Acc", wsP, accG, wsP, litP "debited", wsP, litP "KES",
   wsP, amtG "amount", wsP, litP "on", wsP, bankDateG, lazyAny, litP "Balance:", wsP,
   litP "KES", wsP, balG "balance", lazyAny, litP "Ref:", wsP, numG "reference"]

/-- `self.bank_transfer_pattern`. -/
def bank_transfer_pattern : List Item :=
  [bankG, litP ":", wsP, litP "Transfer of KES", wsP, amtG "amount", wsP, litP "to",
   wsP, .grp "recipient" [.cls isNameC 1 none true], wsP, litP "successful", lazyAny,
   litP "Acc", wsP, accG, wsP, litP "Balance:", wsP, litP "KES", wsP, balG "balance",
   lazyAny, litP "Ref:", wsP, numG "reference", wsP, litP "on", wsP, bankDateG]

/-! ### The ten template parse functions -/

deriving instance DecidableEq for Except

/-- A template attempt: `.ok (some r)` models a returned record, `.ok none`
models a returned `None` (regex did not match), `.error ()` models a raised
exception (a normalizer failure on the captured text). -/
abbrev TFn := List Char → Except Unit (Option TransactionRecord)

/-- `SMSParserTool._parse_mpesa_received`. -/
def parse_mpesa_received (s : List Char) : Except Unit (Option TransactionRecord) :=
  match searchFrom mpesa_received_pattern s with
  | none => .ok none
  | some caps =>
    match parse_amount (capv caps "amount"),
          parse_mpesa_datetime (capv caps "date") (capv caps "time"),
          parse_amount (capv caps "balance") with
    | some amt, some dt, some bal =>
        .ok (some { transaction_type := MPESA_RECEIVED, reference := capv caps "reference",
                    amount := amt, date := dt, balance := bal, raw_text := s,
                    sender := some (pyStrip (capv caps "sender")),
                    phone := some (capv caps "phone"), transaction_cost := some ⟨0, 2⟩ })
    | _, _, _ => .error ()

/-- `SMSParserTool._parse_mpesa_sent`. -/
def parse_mpesa_sent (s : List Char) : Except Unit (Option TransactionRecord) :=
  match searchFrom mpesa_sent_pattern s with
  | none => .ok none
  | some caps =>
    match parse_amount (capv caps "amount"),
          parse_mpesa_datetime (capv caps "date") (capv caps "time"),
          parse_amount (capv caps "balance"), parse_amount (capv caps "cost") with
    | some amt, some dt, some bal, some cost =>
        .ok (some { transaction_type := MPESA_SENT, reference := capv caps "reference",
                    amount := amt, date := dt, balance := bal, raw_text := s,
                    recipient := some (pyStrip (capv caps "recipient")),
                    phone := some (capv caps "phone"), transaction_cost := some cost })
    | _, _, _, _ => .error ()

/-- `SMSParserTool._parse_mpesa_paybill`. -/
def parse_mpesa_paybill (s : List Char) : Except Unit (Option TransactionRecord) :=
  match searchFrom mpesa_paybill_pattern s with
  | none => .ok none
  | some caps =>
    match parse_amount (capv caps "amount"),
          parse_mpesa_datetime (capv caps "date") (capv caps "time"),
          parse_amount (capv caps "balance"), parse_amount (capv caps "cost") with
    | some amt, some dt, some bal, some cost =>
        .ok (some { transaction_type := MPESA_PAYBILL, reference := capv caps "reference",
                    amount := amt, date := dt, balance := bal, raw_text := s,
                    merchant := some (pyStrip (capv caps "merchant")),
                    account_number := some (capv caps "account"),
                    transaction_cost := some cost })
    | _, _, _, _ => .error ()

/-- `SMSParserTool._parse_mpesa_till`. -/
def parse_mpesa_till (s : List Char) : Except Unit (Option TransactionRecord) :=
  match searchFrom mpesa_till_pattern s with
  | none => .ok none
  | some caps =>
    match parse_amount (capv caps "amount"),
          parse_mpesa_datetime (capv caps "date") (capv caps "time"),
          parse_amount (capv caps "balance"), parse_amount (capv caps "cost") with
    | some amt, some dt, some bal, some cost =>
        .ok (some { transaction_type := MPESA_TILL, reference := capv caps "reference",
                    amount := amt, date := dt, balance := bal, raw_text := s,
                    merchant := some (pyStrip (capv caps "merchant")),
                    till_number := some (capv caps "till"),
                    transaction_cost := some cost })
    | _, _, _, _ => .error ()

/-- `SMSParserTool._parse_mpesa_withdrawal`.  Note the hardcoded
`transaction_cost = Decimal('0.00')`: the pattern captures no cost group. -/
def parse_mpesa_withdrawal (s : List Char) : Except Unit (Option TransactionRecord) :=
  match searchFrom mpesa_withdrawal_pattern s with
  | none => .ok none
  | some caps =>
    match parse_amount (capv caps "amount"),
          parse_mpesa_datetime (capv caps "date") (capv caps "time"),
          parse_amount (capv caps "balance") with
    | some amt, some dt, some bal =>
        .ok (some { transaction_type := MPESA_WITHDRAWAL, reference := capv caps "reference",
                    amount := amt, date := dt, balance := bal, raw_text := s,
                    agent_name := some (pyStrip (capv caps "agent")),
                    agent_number := some (capv caps "agent_number"),
                    transaction_cost := some ⟨0, 2⟩ })
    | _, _, _ => .error ()

/-- `SMSParserTool._parse_mpesa_airtime`. -/
def parse_mpesa_airtime (s : List Char) : Except Unit (Option TransactionRecord) :=
  match searchFrom mpesa_airtime_pattern s with
  | none => .ok none
  | some caps =>
    match parse_amount (capv caps "amount"),
          parse_mpesa_datetime (capv caps "date") (capv caps "time"),
          parse_amount (capv caps "balance") with
    | some amt, some dt, some bal =>
        .ok (some { transaction_type := MPESA_AIRTIME, reference := capv caps "reference",
                    amount := amt, date := dt, balance := bal, raw_text := s,
                    phone := some (capv caps "phone"), transaction_cost := some ⟨0, 2⟩ })
    | _, _, _ => .error ()

/-- `SMSParserTool._parse_bank_deposit`.  Bank records carry no
`transaction_cost` key. -/
def parse_bank_deposit (s : List Char) : Except Unit (Option TransactionRecord) :=
  match searchFrom bank_deposit_pattern s with
  | none => .ok none
  | some caps =>
    match parse_amount (capv caps "amount"), parse_bank_date (capv caps "date"),
          parse_amount (capv caps "balance") with
    | some amt, some dt, some bal =>
        .ok (some { transaction_type := BANK_DEPOSIT, reference := capv caps "reference",
                    amount := amt, date := dt, balance := bal, raw_text := s,
                    bank := some (pyStrip (capv caps "bank")),
                    account := some (capv caps "account") })
    | _, _, _ => .error ()

/-- `SMSParserTool._parse_bank_withdrawal`. -/
def parse_bank_withdrawal (s : List Char) : Except Unit (Option TransactionRecord) :=
  match searchFrom bank_withdrawal_pattern s with
  | none => .ok none
  | some caps =>
    match parse_amount (capv caps "amount"), parse_bank_date (capv caps "date"),
          parse_amount (capv caps "balance") with
    | some amt, some dt, some bal =>
        .ok (some { transaction_type := BANK_WITHDRAWAL, reference := capv caps "reference",
                    amount := amt, date := dt, balance := bal, raw_text := s,
                    bank := some (pyStrip (capv caps "bank")),
                    account := some (capv caps "account") })
    | _, _, _ => .error ()

/-- `SMSParserTool._parse_bank_transfer`. -/
def parse_bank_transfer (s : List Char) : Except Unit (Option TransactionRecord) :=
  match searchFrom bank_transfer_pattern s with
  | none => .ok none
  | some caps =>
    match parse_amount (capv caps "amount"), parse_bank_date (capv caps "date"),
          parse_amount (capv caps "balance") with
    | some amt, some dt, some bal =>
        .ok (some { transaction_type := BANK_TRANSFER, reference := capv caps "reference",
                    amount := amt, date := dt, balance := bal, raw_text := s,
                    bank := some (pyStrip (capv caps "bank")),
                    recipient := some (pyStrip (capv caps "recipient")),
                    account := some (capv caps "account") })
    | _, _, _ => .error ()

/-- `SMSParserTool._parse_bank_debit` (alternative bank withdrawal format;
it labels its record `BANK_WITHDRAWAL`). -/
def parse_bank_debit (s : List Char) : Except Unit (Option TransactionRecord) :=
  match searchFrom bank_debit_pattern s with
  | none => .ok none
  | some caps =>
    match parse_amount (capv caps "amount"), parse_bank_date (capv caps "date"),
          parse_amount (capv caps "balance") with
    | some amt, some dt, some bal =>
        .ok (some { transaction_type := BANK_WITHDRAWAL, reference := capv caps "reference",
                    amount := amt, date := dt, balance := bal, raw_text := s,
                    bank := some (pyStrip (capv caps "bank")),
                    account := some (capv caps "account") })
    | _, _, _ => .error ()

/-! ### The dispatcher -/

/-- The `parsers` list of `parse_sms`, in its exact source order. -/
def parsersList : List (List Char × TFn) :=
  [(MPESA_RECEIVED, parse_mpesa_received),
   (MPESA_SENT, parse_mpesa_sent),
   (MPESA_PAYBILL, parse_mpesa_paybill),
   (MPESA_TILL, parse_mpesa_till),
   (MPESA_WITHDRAWAL, parse_mpesa_withdrawal),
   (MPESA_AIRTIME, parse_mpesa_airtime),
   (BANK_TRANSFER, parse_bank_transfer),
   (BANK_DEPOSIT, parse_bank_deposit),
   (BANK_WITHDRAWAL, parse_bank_withdrawal),
   (BANK_WITHDRAWAL, parse_bank_debit)]

/-- The `for transaction_type, parser_func in parsers` loop of
`parse_sms`: return the first template attempt that produces a record; a
raised exception (`.error`) is caught and treated exactly like a
non-match (`continue`). -/
def tryAll : List (List Char × TFn) → List Char → Option TransactionRecord
  | [], _ => none
  | (_, f) :: rest, s =>
    match f s with
    | .ok (some r) => some r
    | _ => tryAll rest s

/-- `SMSParserTool.parse_sms`: a falsy (empty) input returns `None`
immediately; otherwise the text is stripped and the templates are tried in
order.  (The `isinstance` guard is vacuous in the typed embedding.) -/
def parse_sms (s : List Char) : Option TransactionRecord :=
  if s = [] then none
  else tryAll parsersList (pyStrip s)

/-- Number of template attempts (`parser_func(sms_text)` invocations) the
`parse_sms` loop performs before returning: the loop stops at the first
template producing a record and otherwise continues through all of them. -/
def countTries : List (List Char × TFn) → List Char → Nat
  | [], _ => 0
  | (_, f) :: rest, s =>
    match f s with
    | .ok (some _) => 1
    | _ => 1 + countTries rest s

/-- Template attempts performed by `parse_sms` on input `s` (0 when the
falsy-input guard short-circuits). -/
def templatesAttempted (s : List Char) : Nat :=
  if s = [] then 0 else countTries parsersList (pyStrip s)

/-! ### Batch processing and statistics -/

/-- One slot of the list `parse_bulk` returns: the success dict (with its
added `sms_index`) or the failure dict
`{sms_index, error: 'Failed to parse SMS', original_text: sms_text[:100]}`
(the constant `error` string is implicit in the constructor). -/
inductive ParseOutcome where
  | success (sms_index : Nat) (r : TransactionRecord)
  | failure (sms_index : Nat) (original_text : List Char)
deriving DecidableEq, Repr

/-- The body of the `for idx, sms_text in enumerate(sms_list)` loop of
`parse_bulk`: parse one message and build its outcome slot.  The failure
slot stores `sms_text[:100]` of the unstripped input. -/
def outcomeFor (idx : Nat) (s : List Char) : ParseOutcome :=
  match parse_sms s with
  | some r => .success idx r
  | none => .failure idx (s.take 100)

/-- `parse_bulk`'s loop from running index `idx`. -/
def parse_bulk_from (idx : Nat) : List (List Char) → List ParseOutcome
  | [] => []
  | s :: rest => outcomeFor idx s :: parse_bulk_from (idx + 1) rest

/-- `SMSParserTool.parse_bulk`. -/
def parse_bulk (l : List (List Char)) : List ParseOutcome := parse_bulk_from 0 l

/-- The statistics dict built by `get_statistics`. -/
structure BatchStatistics where
  total_transactions : Nat
  successful_parses : Nat
  failed_parses : Nat
  total_amount : Dec
  transaction_type_counts : List (List Char × Nat)
  earliest : Option PyDateTime
  latest : Option PyDateTime
deriving DecidableEq, Repr

/-- Strict `datetime` comparison `a < b` (lexicographic on the calendar
fields, as Python compares `datetime` values). -/
def dtLt (a b : PyDateTime) : Bool :=
  decide (a.year < b.year ∨ (a.year = b.year ∧ (a.month < b.month ∨ (a.month = b.month ∧
    (a.day < b.day ∨ (a.day = b.day ∧ (a.hour < b.hour ∨ (a.hour = b.hour ∧
      a.minute < b.minute))))))))

/-- `counts[t] = counts.get(t, 0) + 1` on an insertion-ordered dict. -/
def bumpCount : List (List Char × Nat) → List Char → List (List Char × Nat)
  | [], t => [(t, 1)]
  | (k, n) :: rest, t =>
    if k = t then (k, n + 1) :: rest else (k, n) :: bumpCount rest t

/-- The body of the `for parsed in parsed_list` loop of `get_statistics`:
an `error` entry only bumps `failed_parses`; a success entry bumps
`successful_parses`, adds its `amount` into `total_amount`, bumps its
type count and widens the date range. -/
def statStep (st : BatchStatistics) (o : ParseOutcome) : BatchStatistics :=
  match o with
  | .failure _ _ => { st with failed_parses := st.failed_parses + 1 }
  | .success _ r =>
    { st with
      successful_parses := st.successful_parses + 1,
      total_amount := st.total_amount.add r.amount,
      transaction_type_counts := bumpCount st.transaction_type_counts r.transaction_type,
      earliest := match st.earliest with
        | none => some r.date
        | some e => if dtLt r.date e then some r.date else some e,
      latest := match st.latest with
        | none => some r.date
        | some e => if dtLt e r.date then some r.date else some e }

/-- `SMSParserTool.get_statistics`. -/
def get_statistics (l : List ParseOutcome) : BatchStatistics :=
  l.foldl statStep ⟨l.length, 0, 0, ⟨0, 2⟩, [], none, none⟩

/-! ### The domain validator -/

/-- A violation descriptor appended to the `errors` list of
`validate_parsed_data` (the formatted message strings are abstracted to
tags carrying the formatted value where one exists). -/
inductive Violation where
  | noData
  | errEntry (msg : List Char)
  | invalidAmount (a : Dec)
  | futureDate (d : PyDateTime)
  | invalidType (t : List Char)
deriving DecidableEq, Repr

/-- The argument of `validate_parsed_data`: `None`/falsy, a failure dict
with its `error` message, or a parsed record. -/
inductive VInput where
  | noneV
  | errV (msg : List Char)
  | recV (r : TransactionRecord)

/-- `SMSParserTool.validate_parsed_data`.  `now` is the value the ambient
call `datetime.now()` returns during this run — the Python code reads the
system clock here, so the embedding makes that read an explicit input.
The required-field loop of the source contributes no errors for record
inputs, because every record dict built by the ten templates contains all
five required keys (structurally guaranteed in `TransactionRecord`). -/
def validate_parsed_data (p : VInput) (now : PyDateTime) : Bool × List Violation :=
  match p with
  | .noneV => (false, [.noData])
  | .errV m => (false, [.errEntry m])
  | .recV r =>
    let errs : List Violation :=
      (if r.amount.mant ≤ 0 then [.invalidAmount r.amount] else []) ++
      (if dtLt now r.date then [.futureDate r.date] else []) ++
      (if r.transaction_type ∈ transaction_types then [] else
        [.invalidType r.transaction_type])
    (errs.isEmpty, errs)

/-! ### Concrete messages used in the verification -/

/-- The canonical money-received message of the specification. -/
def canonMsg : List Char :=
  ("RB90VRG Confirmed. You have received Ksh5,991.87 from STEPHEN WAMBUI " ++
   "254712531512 on 26/08/2025 at 04:23 PM. New M-PESA balance is " ++
   "Ksh-30,000.70. Transaction cost, Ksh0.00.").toList

/-- The record the canonical message parses to. -/
def canonRec : TransactionRecord :=
  { transaction_type := MPESA_RECEIVED, reference := "RB90VRG".toList,
    amount := ⟨599187, 2⟩,
    date := ⟨2025, 8, 26, 16, 23⟩,
    balance := ⟨-3000070, 2⟩,
    raw_text := canonMsg,
    sender := some "STEPHEN WAMBUI".toList,
    phone := some "254712531512".toList,
    transaction_cost := some ⟨0, 2⟩ }

/-- A received-shaped message whose date `33/01/2025` passes the pattern
(`\d{2}/\d{2}/\d{4}`) but makes the datetime normalizer raise. -/
def badDateMsg : List Char :=
  ("AB1 Confirmed. You have received Ksh1.00 from JO 254712345678 on " ++
   "33/01/2025 at 04:23 PM. New M-PESA balance is Ksh1.00").toList

/-- An agent-withdrawal message whose text carries a real non-zero fee
figure (`Transaction cost, Ksh67.00`). -/
def feeMsg : List Char :=
  ("HJ71DZN Confirmed. You have withdrawn Ksh1,430.21 from M-PESA Agent " ++
   "SARAH MUGO 254712216091 on 26/08/2025 at 04:23 PM. New M-PESA balance " ++
   "is Ksh5,000.00. Transaction cost, Ksh67.00.").toList

/-- The record `feeMsg` parses to: its `transaction_cost` is the hardcoded
zero, not the `67.00` present in the text. -/
def feeRec : TransactionRecord :=
  { transaction_type := MPESA_WITHDRAWAL, reference := "HJ71DZN".toList,
    amount := ⟨143021, 2⟩,
    date := ⟨2025, 8, 26, 16, 23⟩,
    balance := ⟨500000, 2⟩,
    raw_text := feeMsg,
    agent_name := some "SARAH MUGO".toList,
    agent_number := some "254712216091".toList,
    transaction_cost := some ⟨0, 2⟩ }

/-- A well-formed received message with amount `100.10`. -/
def recvMsg1 : List Char :=
  ("AA11BB Confirmed. You have received Ksh100.10 from JOHN KAMAU " ++
   "254700000001 on 01/02/2025 at 10:00 AM. New M-PESA balance is Ksh100.10").toList

/-- A well-formed received message with amount `200.20`. -/
def recvMsg2 : List Char :=
  ("CC22DD Confirmed. You have received Ksh200.20 from MARY ATIENO " ++
   "254700000002 on 02/02/2025 at 11:00 AM. New M-PESA balance is Ksh300.30").toList

/-- `recvMsg1` with one leading space: it still parses (the dispatcher
strips it), but the stored `raw_text` is the stripped text. -/
def spacedMsg : List Char := ' ' :: recvMsg1

/-- The record `spacedMsg` parses to. -/
def spacedRec : TransactionRecord :=
  { transaction_type := MPESA_RECEIVED, reference := "AA11BB".toList,
    amount := ⟨10010, 2⟩,
    date := ⟨2025, 2, 1, 10, 0⟩,
    balance := ⟨10010, 2⟩,
    raw_text := recvMsg1,
    sender := some "JOHN KAMAU".toList,
    phone := some "254700000001".toList,
    transaction_cost := some ⟨0, 2⟩ }

/-- A 120-character text no template matches. -/
def gibberishMsg : List Char :=
  ("Hello, how are you? This is just an ordinary chat message with no " ++
   "transaction content at all, but it is rather long one.").toList

/-- A three-message batch whose middle element is garbage text. -/
def sampleBatch : List (List Char) :=
  [recvMsg1, "Hello, how are you?".toList, recvMsg2]

/-- A received message whose amount `100000000000000000000.0000000001`
carries 31 significant digits: the `Decimal` constructor parses it
exactly, but adding it to the running total `Decimal('0.00')` in
`get_statistics` rounds to 28 significant digits under the default
context. -/
def hugeMsg : List Char :=
  ("AB1 Confirmed. You have received Ksh100000000000000000000.0000000001 " ++
   "from JO 254712345678 on 01/01/2025 at 04:23 PM. " ++
   "New M-PESA balance is Ksh1.00").toList

/-! ### Supporting lemmas -/

/-- The `amount` contributed by an outcome to `total_amount`: the amount
of a success, nothing for a failure entry. -/
def successAmount : ParseOutcome → Option Dec
  | .success _ r => some r.amount
  | .failure _ _ => none

theorem statStep_failure_total (st : BatchStatistics) (i : Nat) (t : List Char) :
    (statStep st (.failure i t)).total_amount = st.total_amount := rfl

theorem Dec.toRat_add_exact (a b : Dec)
    (h : numDigits (exactMant a b).natAbs ≤ decPrec) :
    (a.add b).toRat = a.toRat + b.toRat := by
  have hz : (10 : ℚ) ≠ 0 := by norm_num
  have key : ∀ (x t : ℤ), t ≤ max a.scale b.scale →
      ((x * (10 : ℤ) ^ (max a.scale b.scale - t).toNat : ℤ) : ℚ)
          / (10 : ℚ) ^ max a.scale b.scale
        = (x : ℚ) / (10 : ℚ) ^ t := by
    intro x t ht
    push_cast
    rw [← zpow_natCast (10 : ℚ) (max a.scale b.scale - t).toNat,
        Int.toNat_of_nonneg (by omega), zpow_sub₀ hz]
    field_simp
    ring
  have hadd : a.add b = ⟨exactMant a b, max a.scale b.scale⟩ := by
    unfold Dec.add
    simp [h]
  rw [hadd]
  show ((exactMant a b : ℤ) : ℚ) / (10 : ℚ) ^ max a.scale b.scale = _
  unfold exactMant Dec.toRat
  rw [Int.cast_add, add_div, key a.mant a.scale (le_max_left _ _),
      key b.mant b.scale (le_max_right _ _)]

theorem foldl_statStep_total (l : List ParseOutcome) (st : BatchStatistics) :
    (l.foldl statStep st).total_amount
      = (l.filterMap successAmount).foldl Dec.add st.total_amount := by
  induction l generalizing st with
  | nil => rfl
  | cons o t ih =>
    cases o with
    | success i r =>
      simp only [List.foldl_cons, List.filterMap_cons, successAmount]
      exact ih _
    | failure i txt =>
      simp only [List.foldl_cons, List.filterMap_cons, successAmount]
      exact ih _

/-- Whether each step of a decimal summation stays within the default
context's 28 significant digits, so that no addition rounds. -/
def sumExactOk : Dec → List Dec → Bool
  | _, [] => true
  | st, d :: t =>
    decide (numDigits (exactMant st d).natAbs ≤ decPrec) && sumExactOk (st.add d) t

theorem foldl_add_toRat (ds : List Dec) (st : Dec) (h : sumExactOk st ds = true) :
    (ds.foldl Dec.add st).toRat = st.toRat + (ds.map Dec.toRat).sum := by
  induction ds generalizing st with
  | nil => simp
  | cons d t ih =>
    simp only [sumExactOk, Bool.and_eq_true, decide_eq_true_eq] at h
    simp only [List.foldl_cons, List.map_cons, List.sum_cons]
    rw [ih (st.add d) h.2, Dec.toRat_add_exact st d h.1]
    ring

theorem parse_bulk_from_length (idx : Nat) (l : List (List Char)) :
    (parse_bulk_from idx l).length = l.length := by
  induction l generalizing idx with
  | nil => rfl
  | cons s t ih => simp [parse_bulk_from, ih]

theorem parse_bulk_from_get (idx : Nat) (l : List (List Char)) (i : Nat)
    (h : i < l.length) :
    (parse_bulk_from idx l)[i]? = some (outcomeFor (idx + i) (l.get ⟨i, h⟩)) := by
  induction l generalizing idx i with
  | nil => exact absurd h (Nat.not_lt_zero i)
  | cons s t ih =>
    cases i with
    | zero => simp [parse_bulk_from]
    | succ j =>
      have hj : j < t.length := Nat.lt_of_succ_lt_succ h
      have := ih (idx + 1) j hj
      simp only [parse_bulk_from, List.getElem?_cons_succ, this, List.get]
      congr 2
      omega

/-! ### Claim theorems -/

/-- C9: the canonical money-received message parses to a success of kind
`received` with reference `RB90VRG`, amount exactly `5991.87`,
counterparty `STEPHEN WAMBUI`, phone `254712531512`, balance exactly
`-30000.70`, transaction cost exactly `0.00`, and occurred-at
2025-08-26 16:23 (the 12-hour `04:23 PM` converted to 16:23); `canonRec`
spells out exactly these fields. -/
theorem c9_canonical_message_parses : parse_sms canonMsg = some canonRec := by
  decide

/-- C3 counterexample: the batch holding the single successful `hugeMsg`
(amount `100000000000000000000.0000000001`, 31 significant digits,
parsed exactly by the `Decimal` constructor) gets
`total_amount = 1.000000000000000000000000000E+20` — the default context
rounds the addition `Decimal('0.00') + amount` to 28 significant digits —
which is NOT the exact decimal sum of the success amounts. -/
theorem c3_context_rounding_cx :
    (get_statistics (parse_bulk [hugeMsg])).total_amount = ⟨(10 : ℤ) ^ 27, 7⟩ ∧
    (parse_bulk [hugeMsg]).filterMap successAmount = [⟨(10 : ℤ) ^ 30 + 1, 10⟩] ∧
    Dec.toRat ⟨(10 : ℤ) ^ 27, 7⟩ ≠ Dec.toRat ⟨(10 : ℤ) ^ 30 + 1, 10⟩ := by
  refine ⟨by decide, by decide, ?_⟩
  unfold Dec.toRat
  norm_num

/-- C3 (amended): `total_amount` is the decimal sum of the `amount` field
over the success outcomes only, computed as the default decimal context
computes it — each addition exact unless the exact coefficient exceeds 28
significant digits, in which case it is rounded (failure entries
contribute nothing in either case).  Whenever no addition step exceeds 28
significant digits — as for every realistic SMS amount — the total is the
exact decimal sum: its rational value equals the sum of the amounts'
rational values; in particular a batch of two successes with amounts
`100.10` and `200.20` yields exactly the decimal `300.30` (coefficient
30030, exponent -2), of value `3003/10`. -/
theorem c3_context_decimal_sum :
    (∀ l : List ParseOutcome,
        (get_statistics l).total_amount
          = (l.filterMap successAmount).foldl Dec.add ⟨0, 2⟩) ∧
    (∀ l : List ParseOutcome,
        sumExactOk ⟨0, 2⟩ (l.filterMap successAmount) = true →
        (get_statistics l).total_amount.toRat
          = ((l.filterMap successAmount).map Dec.toRat).sum) ∧
    (get_statistics (parse_bulk [recvMsg1, recvMsg2])).total_amount = ⟨30030, 2⟩ ∧
    Dec.toRat ⟨30030, 2⟩ = (3003 : ℚ) / 10 := by
  have hfold : ∀ l : List ParseOutcome,
      (get_statistics l).total_amount
        = (l.filterMap successAmount).foldl Dec.add ⟨0, 2⟩ :=
    fun l => foldl_statStep_total l ⟨l.length, 0, 0, ⟨0, 2⟩, [], none, none⟩
  refine ⟨hfold, ?_, by decide, ?_⟩
  · intro l h
    rw [hfold l, foldl_add_toRat _ _ h]
    simp [Dec.toRat]
  · unfold Dec.toRat
    norm_num

/-- Witness for the amended C3: the two-success `100.10`/`200.20` batch
stays within 28 significant digits at every addition, so its total is the
exact rational sum of the success amounts. -/
theorem c3_context_decimal_sum_witness :
    sumExactOk ⟨0, 2⟩ ((parse_bulk [recvMsg1, recvMsg2]).filterMap successAmount)
      = true ∧
    (get_statistics (parse_bulk [recvMsg1, recvMsg2])).total_amount.toRat
      = (((parse_bulk [recvMsg1, recvMsg2]).filterMap successAmount).map
          Dec.toRat).sum :=
  ⟨by decide, c3_context_decimal_sum.2.1 _ (by decide)⟩

/-- C4: the batch operation returns an outcomes list of the same length
as the input, and the outcome at every index `i` is exactly the result of
classifying `texts[i]` (success record or truncated-text failure slot),
regardless of how other messages fare. -/
theorem c4_batch_order_preserved (l : List (List Char)) (i : Nat) (h : i < l.length) :
    (parse_bulk l).length = l.length ∧
    (parse_bulk l)[i]? = some (outcomeFor i (l.get ⟨i, h⟩)) := by
  refine ⟨parse_bulk_from_length 0 l, ?_⟩
  have := parse_bulk_from_get 0 l i h
  simpa [parse_bulk] using this

/-- Witness for C4 on a concrete three-message batch whose middle message
fails: the outcomes list has length 3 and slot 1 is the failure outcome of
the middle text. -/
theorem c4_batch_order_preserved_witness :
    1 < sampleBatch.length ∧
    (parse_bulk sampleBatch).length = sampleBatch.length ∧
    (parse_bulk sampleBatch)[1]? = some (outcomeFor 1 (sampleBatch.get ⟨1, by decide⟩)) :=
  ⟨by decide, (c4_batch_order_preserved sampleBatch 1 (by decide)).1,
   (c4_batch_order_preserved sampleBatch 1 (by decide)).2⟩

theorem dropWhile_isSpace_of_all (s : List Char) (h : s.all isSpaceC = true) :
    s.dropWhile isSpaceC = [] := by
  induction s with
  | nil => rfl
  | cons c t ih =>
    simp only [List.all_cons, Bool.and_eq_true] at h
    simp [List.dropWhile_cons, h.1, ih h.2]

theorem pyStrip_of_all_space (s : List Char) (h : s.all isSpaceC = true) :
    pyStrip s = [] := by
  unfold pyStrip
  rw [dropWhile_isSpace_of_all s h]
  rfl

/-- C5 counterexample: on the whitespace-only input `" "`, `parse_sms`
does NOT short-circuit before the template loop — all ten templates are
attempted (each against the stripped empty text) — and the returned
failure is the same untagged `None` used for a no-template-match, not a
distinct `EmptyInput` value. -/
theorem c5_whitespace_attempts_all_templates :
    templatesAttempted " ".toList = 10 ∧ parse_sms " ".toList = none :=
  ⟨by decide, by decide⟩

/-- C5 (amended): only genuinely falsy (empty) input short-circuits to
`None` with no template attempted; a whitespace-only input is stripped to
the empty text, every template is attempted against it and fails, and the
result is the same untagged `None` as for any unmatched message. -/
theorem c5_empty_vs_whitespace (s : List Char) (hne : s ≠ [])
    (hsp : s.all isSpaceC = true) :
    (parse_sms s = none ∧ templatesAttempted s = parsersList.length) ∧
    (parse_sms [] = none ∧ templatesAttempted [] = 0) := by
  have hstrip := pyStrip_of_all_space s hsp
  refine ⟨⟨?_, ?_⟩, rfl, rfl⟩
  · unfold parse_sms
    rw [if_neg hne, hstrip]
    decide
  · unfold templatesAttempted
    rw [if_neg hne, hstrip]
    decide

/-- Witness for the amended C5 at the concrete whitespace-only input
`" "`. -/
theorem c5_empty_vs_whitespace_witness :
    (" ".toList ≠ [] ∧ " ".toList.all isSpaceC = true) ∧
    parse_sms " ".toList = none ∧ templatesAttempted " ".toList = parsersList.length :=
  ⟨⟨by decide, by decide⟩,
   (c5_empty_vs_whitespace " ".toList (by decide) (by decide)).1.1,
   (c5_empty_vs_whitespace " ".toList (by decide) (by decide)).1.2⟩

theorem digit_ne_comma (c : Char) (h : isDigitC c = true) : (c == ',') = false := by
  cases hc : c == ','
  · rfl
  · exact absurd h (by rw [eq_of_beq hc]; decide)

theorem stripCommas_eq_self (s : List Char) (h : ∀ c ∈ s, (c == ',') = false) :
    stripCommas s = s := by
  unfold stripCommas
  rw [List.filter_eq_self]
  intro c hc
  simp [h c hc]

theorem takeWhile_digits_append (a b : List Char) (ha : a.all isDigitC = true) :
    (a ++ '.' :: b).takeWhile isDigitC = a := by
  induction a with
  | nil => rfl
  | cons c t ih =>
    simp only [List.all_cons, Bool.and_eq_true] at ha
    simp [List.takeWhile_cons, ha.1, ih ha.2]

theorem dropWhile_digits_append (a b : List Char) (ha : a.all isDigitC = true) :
    (a ++ '.' :: b).dropWhile isDigitC = '.' :: b := by
  induction a with
  | nil => rfl
  | cons c t ih =>
    simp only [List.all_cons, Bool.and_eq_true] at ha
    simp [List.dropWhile_cons, ha.1, ih ha.2]

theorem takeWhile_digits_all (a : List Char) (ha : a.all isDigitC = true) :
    a.takeWhile isDigitC = a := by
  induction a with
  | nil => rfl
  | cons c t ih =>
    simp only [List.all_cons, Bool.and_eq_true] at ha
    simp [List.takeWhile_cons, ha.1, ih ha.2]

theorem dropWhile_digits_all (a : List Char) (ha : a.all isDigitC = true) :
    a.dropWhile isDigitC = [] := by
  induction a with
  | nil => rfl
  | cons c t ih =>
    simp only [List.all_cons, Bool.and_eq_true] at ha
    simp [List.dropWhile_cons, ha.1, ih ha.2]

theorem parseUnsignedDec_digits_point (a b : List Char) (ha : a.all isDigitC = true)
    (hne : a ≠ []) (hb : b.all isDigitC = true) :
    parseUnsignedDec (a ++ '.' :: b)
      = some ⟨(digitsVal a : Int) * (10 : ℤ) ^ b.length + (digitsVal b : Int),
              b.length⟩ := by
  simp only [parseUnsignedDec]
  rw [takeWhile_digits_append a b ha, dropWhile_digits_append a b ha]
  simp [hb, List.isEmpty_iff, hne]

theorem parseUnsignedDec_digits (a : List Char) (ha : a.all isDigitC = true)
    (hne : a ≠ []) : parseUnsignedDec a = some ⟨(digitsVal a : Int), 0⟩ := by
  simp only [parseUnsignedDec]
  rw [takeWhile_digits_all a ha, dropWhile_digits_all a ha]
  simp [List.isEmpty_iff, hne]

theorem parseDecStr_digit_head (c : Char) (t : List Char) (hc : isDigitC c = true) :
    parseDecStr (c :: t) = parseUnsignedDec (c :: t) := by
  have h1 : ¬(c = '-') := fun h => absurd hc (by rw [h]; decide)
  have h2 : ¬(c = '+') := fun h => absurd hc (by rw [h]; decide)
  simp only [parseDecStr, if_neg h1, if_neg h2]

/-- A digit or the decimal point. -/
def isDigitOrDot (c : Char) : Bool := isDigitC c || c == '.'

/-- Modelled from the amended claim's words (a spec-side grammar written
independently of the parser's code, for comparison with it): a residue is
a well-formed numeral when, after at most one leading sign, every
character is a digit or a point, at most one point occurs, and at least
one digit occurs. -/
def wellFormedNumeral (s : List Char) : Bool :=
  let u := match s with
           | c :: t => if c = '-' ∨ c = '+' then t else s
           | [] => s
  u.all isDigitOrDot && decide (u.count '.' ≤ 1) && u.any isDigitC

theorem dropWhile_head_false (p : Char → Bool) (l : List Char) (c : Char)
    (t : List Char) (h : l.dropWhile p = c :: t) : p c = false := by
  induction l with
  | nil => exact absurd h (by simp)
  | cons d r ih =>
    rw [List.dropWhile_cons] at h
    by_cases hd : p d
    · rw [if_pos hd] at h
      exact ih h
    · rw [if_neg hd] at h
      obtain rfl := (List.cons.inj h).1
      exact Bool.eq_false_iff.2 hd

theorem all_digitOrDot_of_digits (l : List Char) (h : l.all isDigitC = true) :
    l.all isDigitOrDot = true := by
  rw [List.all_eq_true] at h ⊢
  intro c hc
  simp [isDigitOrDot, h c hc]

theorem count_dot_of_digits (l : List Char) (h : l.all isDigitC = true) :
    l.count '.' = 0 := by
  rw [List.count_eq_zero]
  intro hmem
  exact absurd (List.all_eq_true.1 h _ hmem) (by decide)

theorem any_digit_of_digits (l : List Char) (h : l.all isDigitC = true) :
    l.any isDigitC = !l.isEmpty := by
  cases l with
  | nil => rfl
  | cons c t =>
    simp only [List.all_cons, Bool.and_eq_true] at h
    simp [List.any_cons, h.1]

theorem takeWhile_digits_split (a r : List Char) (ha : a.all isDigitC = true)
    (hr : ∀ c t, r = c :: t → isDigitC c = false) :
    (a ++ r).takeWhile isDigitC = a ∧ (a ++ r).dropWhile isDigitC = r := by
  induction a with
  | nil =>
    cases r with
    | nil => exact ⟨rfl, rfl⟩
    | cons c t =>
      have := hr c t rfl
      simp [List.takeWhile_cons, List.dropWhile_cons, this]
  | cons c t ih =>
    simp only [List.all_cons, Bool.and_eq_true] at ha
    obtain ⟨h1, h2⟩ := ih ha.2
    simp [List.takeWhile_cons, List.dropWhile_cons, ha.1, h1, h2]

example (a b : Bool) (h : a = true ↔ b = true) : a = b := by
  cases a <;> cases b <;> simp_all

theorem bool_eq_of_iff (a b : Bool) (h : a = true ↔ b = true) : a = b := by
  cases a <;> cases b <;> simp_all

theorem all_digits_iff_dotless (l : List Char) :
    l.all isDigitC = (l.all isDigitOrDot && (l.count '.' == 0)) := by
  induction l with
  | nil => rfl
  | cons c t ih =>
    by_cases hc : c = '.'
    · subst hc
      have hdd : isDigitC '.' = false := by decide
      simp [List.count_cons, isDigitOrDot, hdd]
    · have hcb : (c == '.') = false := by simp [hc]
      have hod : isDigitOrDot c = isDigitC c := by simp [isDigitOrDot, hcb]
      simp only [List.all_cons, List.count_cons, hcb, if_false, hod, ih,
        Nat.add_zero]
      cases isDigitC c <;> cases t.all isDigitOrDot <;>
        cases h0 : t.count '.' == 0 <;> simp [h0]

theorem parseUnsignedDec_isSome_split (ip rest : List Char)
    (hip : ip.all isDigitC = true)
    (hr : ∀ c t, rest = c :: t → isDigitC c = false) :
    (parseUnsignedDec (ip ++ rest)).isSome
      = ((ip ++ rest).all isDigitOrDot && decide ((ip ++ rest).count '.' ≤ 1)
          && (ip ++ rest).any isDigitC) := by
  obtain ⟨htw, hdw⟩ := takeWhile_digits_split ip rest hip hr
  apply bool_eq_of_iff
  simp only [parseUnsignedDec, htw, hdw]
  cases rest with
  | nil =>
    rw [List.append_nil]
    rw [all_digitOrDot_of_digits ip hip, count_dot_of_digits ip hip,
        any_digit_of_digits ip hip]
    cases hie : ip.isEmpty <;> simp [hie]
  | cons c t =>
    have hc : isDigitC c = false := hr c t rfl
    simp only [List.all_append, List.all_cons, List.any_append, List.any_cons,
      List.count_append, List.count_cons,
      all_digitOrDot_of_digits ip hip, count_dot_of_digits ip hip,
      any_digit_of_digits ip hip, hc]
    by_cases hdot : c = '.'
    · subst hdot
      have hido : isDigitOrDot '.' = true := by decide
      by_cases hta : t.all isDigitC = true
      · have h1 := all_digitOrDot_of_digits t hta
        have h2 := count_dot_of_digits t hta
        have h3 := any_digit_of_digits t hta
        by_cases hie : ip.isEmpty = true <;> by_cases hte : t.isEmpty = true <;>
          simp_all [List.isEmpty_iff]
      · have hta3 : t.all isDigitC = false := by simpa using hta
        have hta2 := all_digits_iff_dotless t
        rw [hta3] at hta2
        rw [if_neg (fun hcond => hta hcond.2.1)]
        apply iff_of_false (by simp)
        rcases Bool.and_eq_false_iff.mp hta2.symm with hfa | hfc
        · simp [hfa]
        · have hcnt : t.count '.' ≠ 0 := by simpa using hfc
          have hone : (if (('.' : Char) == '.') = true then 1 else 0) = 1 := rfl
          have harith :
              ¬(0 + (t.count '.' + if (('.' : Char) == '.') = true then 1 else 0) ≤ 1) := by
            rw [hone]
            omega
          simp [harith, hcnt]
    · have hcb : (c == '.') = false := by simp [hdot]
      have hod : isDigitOrDot c = false := by simp [isDigitOrDot, hc, hcb]
      rw [if_neg (fun hcond => hdot hcond.1)]
      apply iff_of_false (by simp) (by simp [hod])

theorem parseUnsignedDec_isSome (u : List Char) :
    (parseUnsignedDec u).isSome
      = (u.all isDigitOrDot && decide (u.count '.' ≤ 1) && u.any isDigitC) := by
  have hipall : (u.takeWhile isDigitC).all isDigitC = true := by
    rw [List.all_eq_true]
    intro c hc
    exact List.mem_takeWhile_imp hc
  have h := parseUnsignedDec_isSome_split (u.takeWhile isDigitC)
    (u.dropWhile isDigitC) hipall
    (fun c t h => dropWhile_head_false isDigitC u c t h)
  rwa [List.takeWhile_append_dropWhile isDigitC u] at h

/-- `_parse_amount` succeeds exactly on the strings whose comma-stripped
residue is a well-formed optionally signed numeral. -/
theorem parse_amount_isSome (s : List Char) :
    (parse_amount s).isSome = wellFormedNumeral (stripCommas s) := by
  unfold parse_amount wellFormedNumeral
  cases hr : stripCommas s with
  | nil => rfl
  | cons c t =>
    by_cases h1 : c = '-'
    · subst h1
      have hred : parseDecStr ('-' :: t) = (parseUnsignedDec t).map Dec.neg := by
        simp [parseDecStr]
      rw [hred, Option.isSome_map', parseUnsignedDec_isSome]
      simp
    · by_cases h2 : c = '+'
      · subst h2
        have hpm : ¬('+' : Char) = '-' := by decide
        have hred : parseDecStr ('+' :: t) = parseUnsignedDec t := by
          simp [parseDecStr, hpm]
        rw [hred, parseUnsignedDec_isSome]
        simp [hpm]
      · simp only [parseDecStr, if_neg h1, if_neg h2]
        rw [parseUnsignedDec_isSome]
        simp [h1, h2]

theorem parse_amount_neg_head (t : List Char) :
    parse_amount ('-' :: t) = (parseUnsignedDec (stripCommas t)).map Dec.neg := rfl

/-- C6 counterexample: the amount normalizer accepts `"1.234"` (three
fractional digits) and yields the exact decimal `1234·10⁻³`, whose value
cannot be written with two fractional digits (`1234·100` is not a
multiple of `10³`) — so the claimed failure on precision greater than 2 is
not enforced. -/
theorem c6_precision_not_enforced :
    parse_amount "1.234".toList = some ⟨1234, 3⟩ ∧
    ¬((10 : ℤ) ^ (3 : Nat) ∣ 1234 * 100) :=
  ⟨by decide, by decide⟩

/-- C6 (amended): for every captured substring, the normalizer strips
thousands separators wherever they occur (the parse depends only on the
comma-stripped residue) and parses to an exact decimal; it succeeds
exactly when the residue is an optionally signed digit string with at
most one decimal point and at least one digit, and fails otherwise; no
2-fractional-digit precision bound is enforced, so amounts with any
number of fractional digits are accepted.  Digit strings around a point
parse to the exact coefficient–exponent decimal, an integer digit string
to the exact integer, a leading `-` negates the unsigned parse of the
rest, interior-comma captures like `5,991.87` and `-30,000.70` parse
exactly, and `""`, `"-"` and `"."` fail. -/
theorem c6_amount_normalizer (s t a b : List Char) (ha : a.all isDigitC = true)
    (hne : a ≠ []) (hb : b.all isDigitC = true) :
    parse_amount s = parse_amount (stripCommas s) ∧
    (parse_amount s).isSome = wellFormedNumeral (stripCommas s) ∧
    parse_amount ('-' :: t) = (parseUnsignedDec (stripCommas t)).map Dec.neg ∧
    parse_amount (a ++ '.' :: b)
      = some ⟨(digitsVal a : Int) * (10 : ℤ) ^ b.length + (digitsVal b : Int),
              (b.length : Int)⟩ ∧
    parse_amount a = some ⟨(digitsVal a : Int), 0⟩ ∧
    parse_amount "5,991.87".toList = some ⟨599187, 2⟩ ∧
    parse_amount "-30,000.70".toList = some ⟨-3000070, 2⟩ ∧
    parse_amount [] = none ∧ parse_amount ['-'] = none ∧ parse_amount ['.'] = none := by
  have hmem : ∀ c ∈ a ++ '.' :: b, (c == ',') = false := by
    intro c hc
    rcases List.mem_append.1 hc with h | h
    · exact digit_ne_comma c (List.all_eq_true.1 ha c h)
    · rcases List.mem_cons.1 h with rfl | h
      · rfl
      · exact digit_ne_comma c (List.all_eq_true.1 hb c h)
  have hmema : ∀ c ∈ a, (c == ',') = false :=
    fun c hc => digit_ne_comma c (List.all_eq_true.1 ha c hc)
  have hidem : stripCommas (stripCommas s) = stripCommas s := by
    apply stripCommas_eq_self
    intro c hc
    simpa using (List.mem_filter.1 hc).2
  refine ⟨?_, parse_amount_isSome s, parse_amount_neg_head t, ?_, ?_,
    by decide, by decide, rfl, rfl, rfl⟩
  · show parseDecStr (stripCommas s) = parseDecStr (stripCommas (stripCommas s))
    rw [hidem]
  · unfold parse_amount
    rw [stripCommas_eq_self _ hmem]
    cases a with
    | nil => exact absurd rfl hne
    | cons c t2 =>
      simp only [List.all_cons, Bool.and_eq_true] at ha
      rw [List.cons_append, parseDecStr_digit_head c (t2 ++ '.' :: b) ha.1]
      exact parseUnsignedDec_digits_point (c :: t2) b
        (by simp [List.all_cons, ha.1, ha.2]) hne hb
  · unfold parse_amount
    rw [stripCommas_eq_self a hmema]
    cases a with
    | nil => exact absurd rfl hne
    | cons c t2 =>
      simp only [List.all_cons, Bool.and_eq_true] at ha
      rw [parseDecStr_digit_head c t2 ha.1]
      exact parseUnsignedDec_digits (c :: t2) (by simp [List.all_cons, ha.1, ha.2]) hne

/-- Witness for the amended C6 at the concrete capture `"5,991.87"` (for
the characterization conjunct) and at `a = "1"`, `b = "234"` (for the
exact-value conjunct: `"1.234"` parses to coefficient `1234`, exponent
`-3`). -/
theorem c6_amount_normalizer_witness :
    ("1".toList.all isDigitC = true ∧ "1".toList ≠ [] ∧
      "234".toList.all isDigitC = true) ∧
    (parse_amount "5,991.87".toList).isSome
      = wellFormedNumeral (stripCommas "5,991.87".toList) ∧
    parse_amount ("1".toList ++ '.' :: "234".toList)
      = some ⟨(digitsVal "1".toList : Int) * (10 : ℤ) ^ "234".toList.length
                + (digitsVal "234".toList : Int), ("234".toList.length : Int)⟩ :=
  ⟨⟨by decide, by decide, by decide⟩,
   (c6_amount_normalizer "5,991.87".toList [] "1".toList "234".toList (by decide) (by decide)
      (by decide)).2.1,
   (c6_amount_normalizer "5,991.87".toList [] "1".toList "234".toList (by decide) (by decide)
      (by decide)).2.2.2.1⟩


/-- A record used to probe the validator: a valid amount and type, dated
2025-08-26 16:23. -/
def probeRec : TransactionRecord :=
  { transaction_type := MPESA_RECEIVED, reference := "RB90VRG".toList,
    amount := ⟨100, 2⟩,
    date := ⟨2025, 8, 26, 16, 23⟩,
    balance := ⟨0, 2⟩,
    raw_text := [] }

/-- C7 counterexample: the validator's output is NOT independent of the
ambient clock — the same record validates differently when
`datetime.now()` returns 2025-01-01 versus 2026-01-01, because the source
compares `parsed_data['date'] > datetime.now()` against ambient system
time rather than a caller-supplied injected reference. -/
theorem c7_ambient_time_dependence :
    validate_parsed_data (.recV probeRec) ⟨2025, 1, 1, 0, 0⟩
      ≠ validate_parsed_data (.recV probeRec) ⟨2026, 1, 1, 0, 0⟩ := by
  decide

/-- C7 (amended): the validator reads the ambient current time (modelled
as the explicit `now` input); for a fixed record and a fixed ambient
instant its verdict is fully determined: it validates exactly when the
amount is positive, the date is not after `now`, and the type is known,
and it reports the future-date violation exactly when the date is after
`now`. -/
theorem c7_validator_determined_by_now (r : TransactionRecord) (now : PyDateTime) :
    ((validate_parsed_data (.recV r) now).1 = true ↔
      (0 < r.amount.mant ∧ dtLt now r.date = false ∧
       r.transaction_type ∈ transaction_types)) ∧
    (Violation.futureDate r.date ∈ (validate_parsed_data (.recV r) now).2 ↔
      dtLt now r.date = true) := by
  unfold validate_parsed_data
  by_cases h1 : r.amount.mant ≤ 0 <;>
    by_cases h2 : dtLt now r.date <;>
      by_cases h3 : r.transaction_type ∈ transaction_types <;>
        (simp [h1, h2, h3]; try omega)

/-- C8: every message the agent-withdrawal template matches produces a
record whose `transaction_cost` is exactly the hardcoded `Decimal('0.00')`
(coefficient 0, exponent -2), regardless of any fee figure in the text. -/
theorem c8_withdrawal_cost_hardcoded_zero (s : List Char) (r : TransactionRecord)
    (h : parse_mpesa_withdrawal s = .ok (some r)) :
    r.transaction_cost = some ⟨0, 2⟩ := by
  unfold parse_mpesa_withdrawal at h
  split at h
  · exact Option.noConfusion (Except.ok.inj h)
  · split at h
    all_goals try exact Except.noConfusion h
    obtain rfl := Option.some.inj (Except.ok.inj h)
    rfl

/-- Witness for C8: `feeMsg` carries the real fee figure
`Transaction cost, Ksh67.00` in its text, yet the parsed record's
`transaction_cost` is `0.00`. -/
theorem c8_withdrawal_cost_witness :
    parse_mpesa_withdrawal feeMsg = .ok (some feeRec) ∧
    feeRec.transaction_cost = some ⟨0, 2⟩ :=
  ⟨by decide, c8_withdrawal_cost_hardcoded_zero feeMsg feeRec (by decide)⟩

theorem tryAll_skip_error (fns : List (List Char × TFn)) (ts : List Char) (i : Nat)
    (hi : i < fns.length) (he : (fns.get ⟨i, hi⟩).2 ts = .error ()) :
    tryAll fns ts = tryAll (fns.eraseIdx i) ts := by
  induction fns generalizing i with
  | nil => exact absurd hi (Nat.not_lt_zero i)
  | cons p rest ih =>
    obtain ⟨ty, f⟩ := p
    cases i with
    | zero =>
      have he2 : f ts = .error () := he
      show (match f ts with | .ok (some r) => some r | _ => tryAll rest ts)
        = tryAll rest ts
      rw [he2]
    | succ j =>
      have hj : j < rest.length := Nat.lt_of_succ_lt_succ hi
      have he2 : (rest.get ⟨j, hj⟩).2 ts = .error () := he
      show (match f ts with | .ok (some r) => some r | _ => tryAll rest ts)
        = (match f ts with | .ok (some r) => some r | _ => tryAll (rest.eraseIdx j) ts)
      cases hf : f ts with
      | ok v =>
        cases v with
        | some r => rfl
        | none => exact ih j hj he2
      | error e => exact ih j hj he2

/-- C1: the dispatcher never propagates an exception: a template attempt
that raises (models: returns `.error ()`, as every field-normalizer
failure inside `_parse_*` does) contributes nothing — `parse_sms` returns
exactly what it would return with that template removed from the priority
list, i.e. it proceeds to the next candidate template; and since
`parse_sms` is a total function into `Option`, every failure mode is a
returned value. -/
theorem c1_normalizer_failure_skips_template (s : List Char) (hne : s ≠ [])
    (i : Nat) (hi : i < parsersList.length)
    (he : (parsersList.get ⟨i, hi⟩).2 (pyStrip s) = .error ()) :
    parse_sms s = tryAll (parsersList.eraseIdx i) (pyStrip s) := by
  unfold parse_sms
  rw [if_neg hne]
  exact tryAll_skip_error parsersList (pyStrip s) i hi he

/-- Witness for C1: on `badDateMsg` the received template structurally
matches but its datetime normalizer raises (day 33); the dispatcher
behaves exactly as if this first template were absent. -/
theorem c1_normalizer_failure_witness :
    (parsersList.get ⟨0, by decide⟩).2 (pyStrip badDateMsg) = .error () ∧
    parse_sms badDateMsg = tryAll (parsersList.eraseIdx 0) (pyStrip badDateMsg) :=
  ⟨by decide,
   c1_normalizer_failure_skips_template badDateMsg (by decide) 0 (by decide) (by decide)⟩

theorem tryAll_first_success (fns : List (List Char × TFn)) (ts : List Char)
    (k : Nat) (hk : k < fns.length) (r : TransactionRecord)
    (hfirst : ∀ j (hj : j < k), ∀ q,
      (fns.get ⟨j, Nat.lt_trans hj hk⟩).2 ts ≠ .ok (some q))
    (hsucc : (fns.get ⟨k, hk⟩).2 ts = .ok (some r)) :
    tryAll fns ts = some r := by
  induction fns generalizing k with
  | nil => exact absurd hk (Nat.not_lt_zero k)
  | cons p rest ih =>
    obtain ⟨ty, f⟩ := p
    cases k with
    | zero =>
      have hs : f ts = .ok (some r) := hsucc
      show (match f ts with | .ok (some q) => some q | _ => tryAll rest ts) = some r
      rw [hs]
    | succ j =>
      have hj : j < rest.length := Nat.lt_of_succ_lt_succ hk
      have hzero : ∀ q, f ts ≠ .ok (some q) := fun q => hfirst 0 (Nat.succ_pos j) q
      show (match f ts with | .ok (some q) => some q | _ => tryAll rest ts) = some r
      cases hf : f ts with
      | ok v =>
        cases v with
        | some q => exact absurd hf (hzero q)
        | none =>
          exact ih j hj (fun j2 hj2 q => hfirst (j2 + 1) (Nat.succ_lt_succ hj2) q) hsucc
      | error e =>
        exact ih j hj (fun j2 hj2 q => hfirst (j2 + 1) (Nat.succ_lt_succ hj2) q) hsucc

/-- C2: templates are tried in the fixed priority order of `parsersList`;
if no template before position `k` produces a record on the stripped
non-empty input and the template at position `k` does, then `parse_sms`
returns exactly that record — the first successful template is the unique
winner, whatever the later templates would do on the same text. -/
theorem c2_first_match_wins (s : List Char) (hne : s ≠ []) (k : Nat)
    (hk : k < parsersList.length) (r : TransactionRecord)
    (hfirst : ∀ j (hj : j < k), ∀ q,
      (parsersList.get ⟨j, Nat.lt_trans hj hk⟩).2 (pyStrip s) ≠ .ok (some q))
    (hsucc : (parsersList.get ⟨k, hk⟩).2 (pyStrip s) = .ok (some r)) :
    parse_sms s = some r := by
  unfold parse_sms
  rw [if_neg hne]
  exact tryAll_first_success parsersList (pyStrip s) k hk r hfirst hsucc

/-- Witness for C2 at the canonical message: the first template (money
received) succeeds with `canonRec`, so it is the winner. -/
theorem c2_first_match_wins_witness :
    (parsersList.get ⟨0, by decide⟩).2 (pyStrip canonMsg) = .ok (some canonRec) ∧
    parse_sms canonMsg = some canonRec :=
  ⟨by decide,
   c2_first_match_wins canonMsg (by decide) 0 (by decide) canonRec
     (fun j hj _ => absurd hj (Nat.not_lt_zero j)) (by decide)⟩

theorem parse_mpesa_received_raw (s : List Char) (r : TransactionRecord)
    (h : parse_mpesa_received s = .ok (some r)) : r.raw_text = s := by
  unfold parse_mpesa_received at h
  split at h
  · exact Option.noConfusion (Except.ok.inj h)
  · split at h
    all_goals try exact Except.noConfusion h
    obtain rfl := Option.some.inj (Except.ok.inj h)
    rfl

theorem parse_mpesa_sent_raw (s : List Char) (r : TransactionRecord)
    (h : parse_mpesa_sent s = .ok (some r)) : r.raw_text = s := by
  unfold parse_mpesa_sent at h
  split at h
  · exact Option.noConfusion (Except.ok.inj h)
  · split at h
    all_goals try exact Except.noConfusion h
    obtain rfl := Option.some.inj (Except.ok.inj h)
    rfl

theorem parse_mpesa_paybill_raw (s : List Char) (r : TransactionRecord)
    (h : parse_mpesa_paybill s = .ok (some r)) : r.raw_text = s := by
  unfold parse_mpesa_paybill at h
  split at h
  · exact Option.noConfusion (Except.ok.inj h)
  · split at h
    all_goals try exact Except.noConfusion h
    obtain rfl := Option.some.inj (Except.ok.inj h)
    rfl

theorem parse_mpesa_till_raw (s : List Char) (r : TransactionRecord)
    (h : parse_mpesa_till s = .ok (some r)) : r.raw_text = s := by
  unfold parse_mpesa_till at h
  split at h
  · exact Option.noConfusion (Except.ok.inj h)
  · split at h
    all_goals try exact Except.noConfusion h
    obtain rfl := Option.some.inj (Except.ok.inj h)
    rfl

theorem parse_mpesa_withdrawal_raw (s : List Char) (r : TransactionRecord)
    (h : parse_mpesa_withdrawal s = .ok (some r)) : r.raw_text = s := by
  unfold parse_mpesa_withdrawal at h
  split at h
  · exact Option.noConfusion (Except.ok.inj h)
  · split at h
    all_goals try exact Except.noConfusion h
    obtain rfl := Option.some.inj (Except.ok.inj h)
    rfl

theorem parse_mpesa_airtime_raw (s : List Char) (r : TransactionRecord)
    (h : parse_mpesa_airtime s = .ok (some r)) : r.raw_text = s := by
  unfold parse_mpesa_airtime at h
  split at h
  · exact Option.noConfusion (Except.ok.inj h)
  · split at h
    all_goals try exact Except.noConfusion h
    obtain rfl := Option.some.inj (Except.ok.inj h)
    rfl

theorem parse_bank_deposit_raw (s : List Char) (r : TransactionRecord)
    (h : parse_bank_deposit s = .ok (some r)) : r.raw_text = s := by
  unfold parse_bank_deposit at h
  split at h
  · exact Option.noConfusion (Except.ok.inj h)
  · split at h
    all_goals try exact Except.noConfusion h
    obtain rfl := Option.some.inj (Except.ok.inj h)
    rfl

theorem parse_bank_withdrawal_raw (s : List Char) (r : TransactionRecord)
    (h : parse_bank_withdrawal s = .ok (some r)) : r.raw_text = s := by
  unfold parse_bank_withdrawal at h
  split at h
  · exact Option.noConfusion (Except.ok.inj h)
  · split at h
    all_goals try exact Except.noConfusion h
    obtain rfl := Option.some.inj (Except.ok.inj h)
    rfl

theorem parse_bank_transfer_raw (s : List Char) (r : TransactionRecord)
    (h : parse_bank_transfer s = .ok (some r)) : r.raw_text = s := by
  unfold parse_bank_transfer at h
  split at h
  · exact Option.noConfusion (Except.ok.inj h)
  · split at h
    all_goals try exact Except.noConfusion h
    obtain rfl := Option.some.inj (Except.ok.inj h)
    rfl

theorem parse_bank_debit_raw (s : List Char) (r : TransactionRecord)
    (h : parse_bank_debit s = .ok (some r)) : r.raw_text = s := by
  unfold parse_bank_debit at h
  split at h
  · exact Option.noConfusion (Except.ok.inj h)
  · split at h
    all_goals try exact Except.noConfusion h
    obtain rfl := Option.some.inj (Except.ok.inj h)
    rfl

theorem raw_text_of_tryAll (fns : List (List Char × TFn)) (ts : List Char)
    (r : TransactionRecord)
    (hfns : ∀ p ∈ fns, ∀ q, p.2 ts = .ok (some q) → q.raw_text = ts)
    (h : tryAll fns ts = some r) : r.raw_text = ts := by
  induction fns with
  | nil => exact Option.noConfusion h
  | cons p rest ih =>
    obtain ⟨ty, f⟩ := p
    have hstep : tryAll ((ty, f) :: rest) ts
        = match f ts with | .ok (some q) => some q | _ => tryAll rest ts := rfl
    rw [hstep] at h
    cases hf : f ts with
    | ok v =>
      cases v with
      | some q =>
        rw [hf] at h
        obtain rfl := Option.some.inj h
        exact hfns (ty, f) (List.mem_cons_self _ _) _ hf
      | none =>
        rw [hf] at h
        exact ih (fun p hp => hfns p (List.mem_cons_of_mem _ hp)) h
    | error e =>
      rw [hf] at h
      exact ih (fun p hp => hfns p (List.mem_cons_of_mem _ hp)) h

theorem parse_sms_raw_text (s : List Char) (r : TransactionRecord)
    (h : parse_sms s = some r) : r.raw_text = pyStrip s := by
  unfold parse_sms at h
  by_cases hs : s = []
  · rw [if_pos hs] at h
    exact Option.noConfusion h
  · rw [if_neg hs] at h
    refine raw_text_of_tryAll parsersList (pyStrip s) r ?_ h
    intro p hp q hq
    simp only [parsersList, List.mem_cons, List.not_mem_nil, or_false] at hp
    rcases hp with rfl | rfl | rfl | rfl | rfl | rfl | rfl | rfl | rfl | rfl
    · exact parse_mpesa_received_raw _ q hq
    · exact parse_mpesa_sent_raw _ q hq
    · exact parse_mpesa_paybill_raw _ q hq
    · exact parse_mpesa_till_raw _ q hq
    · exact parse_mpesa_withdrawal_raw _ q hq
    · exact parse_mpesa_airtime_raw _ q hq
    · exact parse_bank_transfer_raw _ q hq
    · exact parse_bank_deposit_raw _ q hq
    · exact parse_bank_withdrawal_raw _ q hq
    · exact parse_bank_debit_raw _ q hq

/-- The `raw_text` retained in an outcome slot, if it is a success. -/
def rawOf : ParseOutcome → Option (List Char)
  | .success _ r => some r.raw_text
  | .failure _ _ => none

/-- C10 counterexample: `spacedMsg` (the well-formed message with one
leading space) parses successfully in a batch, but the success outcome's
`raw_text` is the stripped text `recvMsg1`, not the full original input —
so a success does not always retain the full text. -/
theorem c10_success_raw_text_not_original :
    (parse_bulk [spacedMsg]).map rawOf = [some recvMsg1] ∧ recvMsg1 ≠ spacedMsg :=
  ⟨by decide, by decide⟩

/-- C10 (amended): in the batch operation a failed message's slot retains
only the first 100 characters of the original input, while a successful
message's slot retains the stripped input in `raw_text` (the full
original exactly when the input has no surrounding whitespace) — so
audit-grade retention of the original is guaranteed for neither failures
over 100 characters nor successes with surrounding whitespace. -/
theorem c10_retention (s : List Char) (idx : Nat) :
    (∀ p, outcomeFor idx s = .failure idx p → p = s.take 100) ∧
    (∀ r, outcomeFor idx s = .success idx r → r.raw_text = pyStrip s) := by
  unfold outcomeFor
  cases hp : parse_sms s with
  | none =>
    refine ⟨fun p h => ?_, fun r h => ParseOutcome.noConfusion h⟩
    exact ((ParseOutcome.failure.inj h).2).symm
  | some r0 =>
    refine ⟨fun p h => ParseOutcome.noConfusion h, fun r h => ?_⟩
    have hr : r = r0 := ((ParseOutcome.success.inj h).2).symm
    rw [hr]
    exact parse_sms_raw_text s r0 hp

/-- Witness for the amended C10: the failing 120-character `gibberishMsg`
keeps only its first 100 characters, and the successful `spacedMsg` keeps
the stripped text. -/
theorem c10_retention_witness :
    outcomeFor 0 gibberishMsg = .failure 0 (gibberishMsg.take 100) ∧
    100 < gibberishMsg.length ∧
    outcomeFor 1 spacedMsg = .success 1 spacedRec ∧
    spacedRec.raw_text = pyStrip spacedMsg :=
  ⟨by decide, by decide, by decide,
   (c10_retention spacedMsg 1).2 spacedRec (by decide)⟩
